import Mathlib

/-!
Verification development for an image-upload-and-gallery application.

Server side (Express router, `router.js`): a POST /images endpoint that fans
out one outbound (axios) upload call per multipart file, classifies each
per-file outcome into a response tracker, and aggregates the trackers into a
single HTTP status/message; a GET /images endpoint that rewrites each image
link to its thumbnail variant; GET/DELETE /image/:imageid proxies that map the
host's 404 to a local 404 and any other failure to a local 500.

Client side (React `UploadConsole` component): a pending-file set with
selection (`handleFileChange`), rename (`handleRename`), concurrent submission
with per-file settlement and a progress counter (`handleSubmit`).

Asynchronous effects are embedded by passing the settle result of each
outbound call explicitly (one result per file); UI state updates become pure
state-passing functions.
-/

namespace ImgurApp

/-! ## Server: POST /images fan-out -/

/-- A multipart file as seen by the server (multer): its original name and
declared media type. The buffer contents do not influence control flow. -/
structure UpFile where
  originalname : String
  mimetype : String
deriving DecidableEq

/-- Imgur's accepted file types, the allow-list checked in the
POST /images handler. -/
def allowedMimeTypes : List String :=
  ["image/jpeg", "image/jpg", "image/gif", "image/png", "image/apng", "image/tiff"]

/-- How one outbound axios.post upload call settles: resolved with a status
(axios resolves exactly for success-range statuses), rejected with a response
carrying a status code, or rejected with no response (network error / thrown). -/
inductive OutboundResult where
  | resolved (status : Nat)
  | rejectedWithStatus (status : Nat)
  | rejectedNoResponse
deriving DecidableEq

/-- The per-file `responseTracker` object: file name, success flag, type-error
flag, and the recorded status (`none` models the field never being set, as for
type errors). -/
structure ResponseTracker where
  file : String
  success : Bool
  typeError : Bool
  status : Option Nat
deriving DecidableEq

/-- Per-file processing in the POST /images handler: the mimetype allow-list
check first (a disallowed type returns a type-error tracker before any outbound
call), then the try/catch around the outbound call. The second component
records whether the outbound call was made. -/
def uploadFile (f : UpFile) (out : OutboundResult) : ResponseTracker × Bool :=
  if !(allowedMimeTypes.contains f.mimetype) then
    ({ file := f.originalname, success := false, typeError := true, status := none }, false)
  else
    match out with
    | .resolved s =>
        ({ file := f.originalname, success := s == 200, typeError := false, status := some s },
          true)
    | .rejectedWithStatus s =>
        ({ file := f.originalname, success := false, typeError := false, status := some s },
          true)
    | .rejectedNoResponse =>
        ({ file := f.originalname, success := false, typeError := false, status := some 500 },
          true)

/-- The batch fan-out: one tracker per file (Promise.all over req.files.map),
given the settle result each file's outbound call would produce. -/
def processBatch (files : List UpFile) (outs : List OutboundResult) : List ResponseTracker :=
  (files.zip outs).map (fun p => (uploadFile p.1 p.2).1)

/-- The aggregate HTTP response of POST /images: 400 when no files are
attached; otherwise 200 when every tracker succeeded, 500 when some tracker
recorded status 500, else 400. -/
def postImagesResponse (files : List UpFile) (outs : List OutboundResult) : Nat × String :=
  if files.isEmpty then
    (400, "No files attached or files are incorrectly formatted.")
  else
    let responses := processBatch files outs
    if responses.all (fun r => r.success) then
      (200, "success")
    else if responses.any (fun r => r.status == some 500) then
      (500, "Failed to upload images to Imgur.")
    else
      (400, "Failed to upload some images to Imgur. Ensure that all files uploaded are of the correct size and type.")

/-! ## Server: GET /image/:imageid and DELETE /image/:imageid -/

/-- How a single outbound host call settles for the proxy endpoints:
resolved with a payload, rejected with a response carrying a status code, or
rejected with no response. -/
inductive HostCallResult (α : Type) where
  | ok (d : α)
  | errStatus (s : Nat)
  | errNoResponse
deriving DecidableEq

/-- An image object as returned by the host (the fields the application
relays: id, title, link, views, datetime). -/
structure RemoteImage where
  id : String
  title : String
  link : String
  views : Nat
  datetime : Nat
deriving DecidableEq

/-- Body of a GET /image/:imageid response: either the relayed image payload
or a text message. -/
inductive GetBody where
  | image (d : RemoteImage)
  | msg (s : String)
deriving DecidableEq

/-- GET /image/:imageid: relay the payload on success; map a host 404 to a
local 404 with the fixed message; map any other failure to a local 500. -/
def getImageById (r : HostCallResult RemoteImage) : Nat × GetBody :=
  match r with
  | .ok d => (200, .image d)
  | .errStatus s =>
      if s = 404 then (404, .msg "Image not found.")
      else (500, .msg "Failed to fetch image from Imgur.")
  | .errNoResponse => (500, .msg "Failed to fetch image from Imgur.")

/-- DELETE /image/:imageid: "success" on success; a host 404 becomes a local
404 with the fixed message; any other failure becomes a local 500. -/
def deleteImageById (r : HostCallResult Unit) : Nat × String :=
  match r with
  | .ok _ => (200, "success")
  | .errStatus s =>
      if s = 404 then (404, "Image not found.")
      else (500, "Failed to delete image from Imgur.")
  | .errNoResponse => (500, "Failed to delete image from Imgur.")

/-! ## Server: GET /images thumbnail rewrite -/

/-- Lowercase ASCII letter, the character class of the extension pattern. -/
def isLowerAlpha (c : Char) : Bool := 'a' ≤ c && c ≤ 'z'

/-- The thumbnail size token inserted into each link. -/
def thumbnailSize : String := "m"

/-- `link.replace(/(\.[a-z]+)$/, size ++ "$1")` on the character list: when the
string ends in a dot followed by one or more lowercase letters, insert the size
token before that dot; otherwise leave the string unchanged. -/
def rewriteLinkChars (size : List Char) (l : List Char) : List Char :=
  let rev := l.reverse
  let extRev := rev.takeWhile isLowerAlpha
  if extRev.isEmpty then l
  else
    match rev.drop extRev.length with
    | '.' :: stemRev => stemRev.reverse ++ size ++ '.' :: extRev.reverse
    | _ => l

/-- The link rewrite on strings. -/
def rewriteLink (s : String) : String := ⟨rewriteLinkChars thumbnailSize.data s.data⟩

/-- One image of the GET /images response: the link is rewritten to the
thumbnail variant, every other field is spread through unchanged. -/
def toThumbnail (img : RemoteImage) : RemoteImage := { img with link := rewriteLink img.link }

/-- The GET /images success payload: the host's image list with each link
rewritten. -/
def getImagesResponse (imgs : List RemoteImage) : List RemoteImage := imgs.map toThumbnail

/-! ## Client: UploadConsole state and handlers -/

/-- A pending file entry in the client's `selectedFiles` state: opaque id,
display name, byte size, and the two outcome flags. -/
structure SelectedFile where
  id : String
  name : String
  size : Nat
  uploaded : Bool
  uploadFailed : Bool
deriving DecidableEq

/-- A candidate file coming from the file-input change event. -/
structure CandidateFile where
  name : String
  size : Nat
deriving DecidableEq

/-- Configured maximum number of pending files. -/
def MAX_FILE_COUNT : Nat := 20

/-- Configured per-file byte ceiling (20 MB). -/
def MAX_FILE_SIZE : Nat := 20 * 1024 * 1024

/-- Configured maximum length of a new display name. -/
def NEW_NAME_MAX_LENGTH : Nat := 20

/-- Wrap each valid candidate into a fresh `SelectedFile` entry (uuid supplied
by the id source, both outcome flags false). -/
def attachIds (ids : Nat → String) (k : Nat) : List CandidateFile → List SelectedFile
  | [] => []
  | c :: cs =>
      { id := ids k, name := c.name, size := c.size, uploaded := false, uploadFailed := false }
        :: attachIds ids (k + 1) cs

/-- `handleFileChange`: reject the whole incoming batch when the total count
would exceed the cap; otherwise drop the oversized candidates and append the
rest, each with fresh id and both flags false. -/
def handleFileChange (ids : Nat → String) (prev : List SelectedFile)
    (cands : List CandidateFile) : List SelectedFile :=
  if MAX_FILE_COUNT < cands.length + prev.length then prev
  else prev ++ attachIds ids 0 (cands.filter (fun c => !(MAX_FILE_SIZE < c.size)))

/-- How one client fetch settles: resolved with `response.ok` true, resolved
with `response.ok` false, or thrown (network error). -/
inductive FetchResult where
  | resolvedOk
  | resolvedNotOk
  | threw
deriving DecidableEq

/-- Per-file settlement inside the Promise.all of `handleSubmit`: a resolved
fetch assigns `uploaded := response.ok`; a thrown fetch leaves the entry as it
was (only the progress counter moves). -/
def settleFile (f : SelectedFile) (r : FetchResult) : SelectedFile :=
  match r with
  | .resolvedOk => { f with uploaded := true }
  | .resolvedNotOk => { f with uploaded := false }
  | .threw => f

/-- The decrement applied to `uploadProgressCount` when one request settles:
both the try branch and the catch branch decrement by one. -/
def settleDecrement (c : Int) (r : FetchResult) : Int :=
  match r with
  | .resolvedOk => c - 1
  | .resolvedNotOk => c - 1
  | .threw => c - 1

/-- The successive values of `uploadProgressCount` during a submission: it is
set to the batch size up front, then each settlement applies its decrement. -/
def progressTrace (k : Nat) (results : List FetchResult) : List Int :=
  results.scanl settleDecrement (k : Int)

/-- The observable effects of one `handleSubmit` run. -/
structure SubmitEffects where
  newState : List SelectedFile
  refreshTriggered : Bool
  alertShown : Bool
  progressValues : List Int
deriving DecidableEq

/-- `handleSubmit`, given how each file's fetch settles: settle every entry,
call `onUploadSuccess` when some entry is uploaded, retain exactly the
non-uploaded entries with `uploadFailed` set (the in-place mutation also marks
those entries inside the old array, which the alert check then reads), and
show the aggregate alert when the mutated array has a failed entry. -/
def handleSubmit (files : List SelectedFile) (results : List FetchResult) : SubmitEffects :=
  let settled := (files.zip results).map (fun p => settleFile p.1 p.2)
  let retained := (settled.filter (fun f => !f.uploaded)).map
    (fun f => { f with uploadFailed := true })
  let afterMutation := settled.map
    (fun f => if f.uploaded then f else { f with uploadFailed := true })
  { newState := retained
    refreshTriggered := settled.any (fun f => f.uploaded)
    alertShown := afterMutation.any (fun f => f.uploadFailed)
    progressValues := progressTrace files.length results }

/-- Alphanumeric ASCII character, the character class of `NEW_NAME_REGEX`. -/
def isAlphanumChar (c : Char) : Bool :=
  ('a' ≤ c && c ≤ 'z') || ('A' ≤ c && c ≤ 'Z') || ('0' ≤ c && c ≤ '9')

/-- `NEW_NAME_REGEX.test`, i.e. /^[a-zA-Z0-9]\x7b1,20\x7d$/ : between one and
twenty characters, all alphanumeric. -/
def newNameRegexTest (s : String) : Bool :=
  1 ≤ s.length && s.length ≤ NEW_NAME_MAX_LENGTH && s.data.all isAlphanumChar

/-- JavaScript's `split(sep)` for a one-character separator, on character
lists: always returns at least one (possibly empty) segment. -/
def splitOnChar (c : Char) : List Char → List (List Char)
  | [] => [[]]
  | x :: xs =>
    match splitOnChar c xs with
    | [] => [[]]
    | h :: t => if x = c then [] :: h :: t else (x :: h) :: t

/-- `name.split(".").pop()`: the segment after the last dot; for a dotless
name this is the whole name. -/
def fileExtension (name : String) : String :=
  ⟨(splitOnChar '.' name.data).getLastD []⟩

/-- `handleRename`: look up the target entry to take its extension (the code
dereferences the find result unconditionally, so an absent id never reaches a
state update); reject an empty name, then a name failing the regex, with an
alert and no state change; otherwise rebuild the matching entry's file with
the new name plus the preserved extension. -/
def handleRename (files : List SelectedFile) (targetId : String) (newName : String) :
    List SelectedFile :=
  match files.find? (fun f => f.id == targetId) with
  | none => files
  | some target =>
    let ext := fileExtension target.name
    if newName = "" then files
    else if !newNameRegexTest newName then files
    else
      files.map (fun f =>
        if f.id == targetId then { f with name := newName ++ "." ++ ext } else f)

/-! ## Theorems: server side -/

/-- C1: for every multipart batch accepted by POST /images (at least one
file), the aggregate response follows the three-way policy over the per-file
trackers: all succeeded → 200 with "success"; otherwise, some tracker whose
recorded status is 500 → 500; otherwise → 400 with the message telling the
caller to check file size and type. -/
theorem post_images_aggregation (files : List UpFile) (outs : List OutboundResult)
    (hne : files ≠ []) :
    ((processBatch files outs).all (fun r => r.success) = true →
      postImagesResponse files outs = (200, "success")) ∧
    ((processBatch files outs).all (fun r => r.success) = false →
      (processBatch files outs).any (fun r => r.status == some 500) = true →
      postImagesResponse files outs = (500, "Failed to upload images to Imgur.")) ∧
    ((processBatch files outs).all (fun r => r.success) = false →
      (processBatch files outs).any (fun r => r.status == some 500) = false →
      postImagesResponse files outs = (400,
        "Failed to upload some images to Imgur. Ensure that all files uploaded are of the correct size and type.")) := by
  have hemp : files.isEmpty = false := by
    cases files with
    | nil => exact absurd rfl hne
    | cons a l => rfl
  refine ⟨fun h1 => ?_, fun h1 h2 => ?_, fun h1 h2 => ?_⟩
  · simp [postImagesResponse, hemp, h1]
  · simp [postImagesResponse, hemp, h1, h2]
  · simp [postImagesResponse, hemp, h1, h2]

/-- Witness for C1 at a concrete single-file batch whose outbound call
resolves with status 200. -/
theorem post_images_aggregation_w :
    postImagesResponse [{ originalname := "test-file.jpg", mimetype := "image/jpeg" }]
      [.resolved 200] = (200, "success") :=
  (post_images_aggregation
      [{ originalname := "test-file.jpg", mimetype := "image/jpeg" }]
      [.resolved 200] (by decide)).1 (by decide)

/-- C4 counterexample: the handler marks a tracker successful only for status
200, so an outbound call resolving with the success status 204 (axios resolves
exactly the 2xx range) is classified as a failure, refuting the claim that any
success status yields a success outcome. -/
theorem upload_success_status_counterexample :
    ¬ (∀ (f : UpFile) (s : Nat), allowedMimeTypes.contains f.mimetype = true →
        200 ≤ s → s < 300 → ((uploadFile f (OutboundResult.resolved s)).1).success = true) := by
  intro h
  have hc := h { originalname := "test-file.jpg", mimetype := "image/jpeg" } 204
    (by decide) (by decide) (by decide)
  exact absurd hc (by decide)

/-- C4 (amended): for every allow-listed file, the outcome is successful
exactly when the outbound call resolves with status 200 (any resolved status
is recorded; a non-200 resolution is recorded but classified failed); a
rejection carrying a status code is a failure with that status recorded; a
rejection with no response is a failure recorded with the generic 500. -/
theorem upload_outcome_classification (f : UpFile) (s : Nat)
    (h : allowedMimeTypes.contains f.mimetype = true) :
    ((uploadFile f (.resolved s)).1.success = (s == 200) ∧
      (uploadFile f (.resolved s)).1.status = some s) ∧
    ((uploadFile f (.rejectedWithStatus s)).1.success = false ∧
      (uploadFile f (.rejectedWithStatus s)).1.status = some s) ∧
    ((uploadFile f .rejectedNoResponse).1.success = false ∧
      (uploadFile f .rejectedNoResponse).1.status = some 500) := by
  have hmem : f.mimetype ∈ allowedMimeTypes := by simpa using h
  simp [uploadFile, hmem]

/-- Witness for the amended C4 at a concrete allow-listed file and status. -/
theorem upload_outcome_classification_w :
    allowedMimeTypes.contains "image/png" = true ∧
    (uploadFile { originalname := "p.png", mimetype := "image/png" }
        (.rejectedWithStatus 404)).1.success = false ∧
    (uploadFile { originalname := "p.png", mimetype := "image/png" }
        (.rejectedWithStatus 404)).1.status = some 404 :=
  ⟨by decide,
   (upload_outcome_classification { originalname := "p.png", mimetype := "image/png" }
      404 (by decide)).2.1.1,
   (upload_outcome_classification { originalname := "p.png", mimetype := "image/png" }
      404 (by decide)).2.1.2⟩

/-- C6: a file whose declared media type is off the allow-list gets a
synthesized failed (type-error) tracker and no outbound call, whatever that
call would have returned; an allow-listed file does get its outbound call. -/
theorem type_filter_no_call (f : UpFile) (out : OutboundResult) :
    (allowedMimeTypes.contains f.mimetype = false →
      uploadFile f out =
        ({ file := f.originalname, success := false, typeError := true, status := none },
          false)) ∧
    (allowedMimeTypes.contains f.mimetype = true → (uploadFile f out).2 = true) := by
  constructor
  · intro h
    have hmem : f.mimetype ∉ allowedMimeTypes := by simpa using h
    simp [uploadFile, hmem]
  · intro h
    have hmem : f.mimetype ∈ allowedMimeTypes := by simpa using h
    cases out <;> simp [uploadFile, hmem]

/-- Witness for C6: in the same batch shape, a text file gets no outbound
call and a jpeg does. -/
theorem type_filter_no_call_w :
    allowedMimeTypes.contains "text/plain" = false ∧
    uploadFile { originalname := "b.txt", mimetype := "text/plain" } (.resolved 200) =
      ({ file := "b.txt", success := false, typeError := true, status := none }, false) ∧
    allowedMimeTypes.contains "image/jpeg" = true ∧
    (uploadFile { originalname := "a.jpg", mimetype := "image/jpeg" } (.resolved 200)).2
      = true :=
  ⟨by decide,
   (type_filter_no_call { originalname := "b.txt", mimetype := "text/plain" }
      (.resolved 200)).1 (by decide),
   by decide,
   (type_filter_no_call { originalname := "a.jpg", mimetype := "image/jpeg" }
      (.resolved 200)).2 (by decide)⟩

/-- C7: on both GET /image/:imageid and DELETE /image/:imageid, a host failure
with status 404 maps to a local 404 with the fixed not-found message; a host
failure with any other status, or with no response at all, maps to a local
500; and a host 404 never yields a local 500. -/
theorem not_found_mapping :
    getImageById (.errStatus 404) = (404, .msg "Image not found.") ∧
    deleteImageById (.errStatus 404) = (404, "Image not found.") ∧
    (∀ s : Nat, s ≠ 404 →
      getImageById (.errStatus s) = (500, .msg "Failed to fetch image from Imgur.") ∧
      deleteImageById (.errStatus s) = (500, "Failed to delete image from Imgur.")) ∧
    getImageById .errNoResponse = (500, .msg "Failed to fetch image from Imgur.") ∧
    deleteImageById .errNoResponse = (500, "Failed to delete image from Imgur.") ∧
    (getImageById (.errStatus 404)).1 ≠ 500 ∧
    (deleteImageById (.errStatus 404)).1 ≠ 500 := by
  refine ⟨by decide, by decide, fun s hs => ?_, by decide, by decide, by decide, by decide⟩
  simp [getImageById, deleteImageById, hs]

/-- `takeWhile` consumes exactly a prefix on which the predicate holds when
the next element refutes it. -/
theorem takeWhile_append_cons (p : Char → Bool) (xs : List Char) (y : Char) (ys : List Char)
    (hxs : ∀ x ∈ xs, p x = true) (hy : p y = false) :
    (xs ++ y :: ys).takeWhile p = xs := by
  induction xs with
  | nil => simp [List.takeWhile_cons, hy]
  | cons a l ih =>
    have ha : p a = true := hxs a (by simp)
    simp [List.takeWhile_cons, ha, ih (fun x hx => hxs x (by simp [hx]))]

/-- The character-level rewrite on a string that ends in a dot followed by a
nonempty run of lowercase letters: the size token lands right before that
dot. -/
theorem rewriteLinkChars_spec (size lc ec : List Char) (hne : ec ≠ [])
    (hlow : ∀ c ∈ ec, isLowerAlpha c = true) :
    rewriteLinkChars size (lc ++ '.' :: ec) = lc ++ size ++ '.' :: ec := by
  have hrev : (lc ++ '.' :: ec).reverse = ec.reverse ++ '.' :: lc.reverse := by simp
  have htake : (ec.reverse ++ '.' :: lc.reverse).takeWhile isLowerAlpha = ec.reverse :=
    takeWhile_append_cons _ _ _ _ (fun x hx => hlow x (by simpa using hx)) (by decide)
  have hdrop : (ec.reverse ++ '.' :: lc.reverse).drop ec.reverse.length = '.' :: lc.reverse :=
    List.drop_left _ _
  have hempty : ec.reverse.isEmpty = false := by
    cases h : ec.reverse with
    | nil => exact absurd (by simpa using h) hne
    | cons a l => rfl
  simp only [rewriteLinkChars, hrev, htake, hempty, hdrop]
  simp

/-- Witness for C7 at a concrete non-404 host failure status. -/
theorem not_found_mapping_w :
    (503 : Nat) ≠ 404 ∧
    getImageById (.errStatus 503) = (500, .msg "Failed to fetch image from Imgur.") ∧
    deleteImageById (.errStatus 503) = (500, "Failed to delete image from Imgur.") :=
  ⟨by decide, (not_found_mapping.2.2.1 503 (by decide)).1,
   (not_found_mapping.2.2.1 503 (by decide)).2⟩

/-- C8: every image of the GET /images list response has its link rewritten by
inserting the thumbnail size token immediately before the file extension (the
trailing dot-plus-lowercase-letters run), and all its other fields relayed
unchanged. -/
theorem thumbnail_rewrite (imgs : List RemoteImage) (img : RemoteImage)
    (stem ext : String) (hmem : img ∈ imgs) (hlink : img.link = stem ++ "." ++ ext)
    (hne : ext ≠ "") (hlow : ∀ c ∈ ext.data, isLowerAlpha c = true) :
    toThumbnail img ∈ getImagesResponse imgs ∧
    (toThumbnail img).link = stem ++ "m." ++ ext ∧
    (toThumbnail img).id = img.id ∧ (toThumbnail img).title = img.title ∧
    (toThumbnail img).views = img.views ∧ (toThumbnail img).datetime = img.datetime := by
  have hne' : ext.data ≠ [] := fun h => hne (String.ext (by simpa using h))
  have hdata : img.link.data = stem.data ++ '.' :: ext.data := by
    rw [hlink, String.congr_append (stem ++ ".") ext, String.congr_append stem "."]
    simp
  refine ⟨List.mem_map_of_mem _ hmem, ?_, rfl, rfl, rfl, rfl⟩
  show rewriteLink img.link = stem ++ "m." ++ ext
  refine String.ext ?_
  show rewriteLinkChars thumbnailSize.data img.link.data = _
  rw [hdata, rewriteLinkChars_spec _ _ _ hne' hlow]
  rw [String.congr_append (stem ++ "m.") ext, String.congr_append stem "m."]
  simp [thumbnailSize]

/-- A concrete host image for the C8 witness. -/
def sampleImage : RemoteImage :=
  { id := "i1", title := "t", link := "https://host/abc.jpg", views := 1, datetime := 2 }

/-- Witness for C8 at a concrete list response whose link is
https://host/abc.jpg. -/
theorem thumbnail_rewrite_w :
    (toThumbnail sampleImage).link = "https://host/abc" ++ "m." ++ "jpg" ∧
    "https://host/abc" ++ "m." ++ "jpg" = "https://host/abcm.jpg" :=
  ⟨(thumbnail_rewrite [sampleImage] sampleImage "https://host/abc" "jpg"
      (by simp) rfl (by decide) (by decide)).2.1, rfl⟩

/-! ## Theorems: client side -/

/-- On an entry with `uploaded = false` (the only kind that is ever pending),
settlement marks the entry uploaded exactly on a resolved ok fetch. -/
theorem settleFile_of_clean (f : SelectedFile) (r : FetchResult) (h : f.uploaded = false) :
    settleFile f r =
      if r = .resolvedOk then { f with uploaded := true } else f := by
  cases r with
  | resolvedOk => rfl
  | resolvedNotOk => cases f; simp_all [settleFile]
  | threw => simp [settleFile]

/-- The settled `uploaded` flag of a clean entry is exactly "its fetch
resolved ok". -/
theorem settled_uploaded (f : SelectedFile) (r : FetchResult) (h : f.uploaded = false) :
    (settleFile f r).uploaded = decide (r = FetchResult.resolvedOk) := by
  cases r <;> simp [settleFile, h]

/-- Core of the reconciliation: over any zipped batch of clean entries,
filtering the settled entries on `!uploaded` and marking them failed is the
same as keeping exactly the entries whose fetch did not resolve ok. -/
theorem submit_retained_eq (l : List (SelectedFile × FetchResult))
    (h : ∀ p ∈ l, p.1.uploaded = false) :
    ((l.map (fun p => settleFile p.1 p.2)).filter (fun f => !f.uploaded)).map
        (fun f => { f with uploadFailed := true })
      = (l.filter (fun p => p.2 ≠ FetchResult.resolvedOk)).map
          (fun p => { p.1 with uploadFailed := true }) := by
  induction l with
  | nil => rfl
  | cons p t ih =>
    have hp : p.1.uploaded = false := h p (by simp)
    have ht := ih (fun q hq => h q (by simp [hq]))
    obtain ⟨f, r⟩ := p
    cases r <;> cases f <;> simp_all [settleFile]

/-- C2: once all per-file requests of a submission have settled, the pending
set is replaced by exactly the files whose request did not succeed (each
marked `uploadFailed`, successes dropped), the gallery refresh callback fires
when at least one file succeeded, and the aggregate "some files failed,
retained" alert is shown when at least one file failed. -/
theorem submit_reconciliation (files : List SelectedFile) (results : List FetchResult)
    (hlen : results.length = files.length)
    (hclean : ∀ f ∈ files, f.uploaded = false) :
    (handleSubmit files results).newState
        = ((files.zip results).filter (fun p => p.2 ≠ FetchResult.resolvedOk)).map
            (fun p => { p.1 with uploadFailed := true }) ∧
    ((∃ p ∈ files.zip results, p.2 = FetchResult.resolvedOk) →
      (handleSubmit files results).refreshTriggered = true) ∧
    ((∃ p ∈ files.zip results, p.2 ≠ FetchResult.resolvedOk) →
      (handleSubmit files results).alertShown = true) := by
  have hzip : ∀ p ∈ files.zip results, p.1.uploaded = false :=
    fun p hp => hclean p.1 (List.of_mem_zip hp).1
  refine ⟨submit_retained_eq _ hzip, ?_, ?_⟩
  · rintro ⟨p, hp, hok⟩
    show List.any _ _ = true
    rw [List.any_eq_true]
    refine ⟨settleFile p.1 p.2, List.mem_map_of_mem _ hp, ?_⟩
    rw [hok]; rfl
  · rintro ⟨p, hp, hne⟩
    show List.any _ _ = true
    rw [List.any_eq_true]
    have hup : (settleFile p.1 p.2).uploaded = false := by
      rw [settled_uploaded p.1 p.2 (hzip p hp)]
      simpa using hne
    refine ⟨{ settleFile p.1 p.2 with uploadFailed := true }, ?_, rfl⟩
    have hmem := List.mem_map_of_mem
      (fun f => if f.uploaded then f else { f with uploadFailed := true })
      (List.mem_map_of_mem (fun p => settleFile p.1 p.2) hp)
    simpa [hup] using hmem

/-- Concrete pending entries for the client-side witnesses. -/
def sampleFileA : SelectedFile :=
  { id := "f1", name := "a.png", size := 4, uploaded := false, uploadFailed := false }

/-- A second concrete pending entry. -/
def sampleFileB : SelectedFile :=
  { id := "f2", name := "b.png", size := 4, uploaded := false, uploadFailed := false }

/-- A third concrete pending entry. -/
def sampleFileC : SelectedFile :=
  { id := "f3", name := "c.png", size := 4, uploaded := false, uploadFailed := false }

/-- Witness for C2: batch of three where file 2's call rejects and files 1,3
succeed — files 1,3 dropped, file 2 retained failed, refresh and alert fire. -/
theorem submit_reconciliation_w :
    (handleSubmit [sampleFileA, sampleFileB, sampleFileC]
        [.resolvedOk, .threw, .resolvedOk]).newState
      = [{ sampleFileB with uploadFailed := true }] ∧
    (handleSubmit [sampleFileA, sampleFileB, sampleFileC]
        [.resolvedOk, .threw, .resolvedOk]).refreshTriggered = true ∧
    (handleSubmit [sampleFileA, sampleFileB, sampleFileC]
        [.resolvedOk, .threw, .resolvedOk]).alertShown = true := by
  have h := submit_reconciliation [sampleFileA, sampleFileB, sampleFileC]
    [.resolvedOk, .threw, .resolvedOk] (by decide) (by decide)
  exact ⟨h.1.trans (by decide), h.2.1 (by decide), h.2.2 (by decide)⟩

/-- Every entry created by selection carries both outcome flags false. -/
theorem attachIds_flags (ids : Nat → String) (k : Nat) (cs : List CandidateFile)
    (f : SelectedFile) (hf : f ∈ attachIds ids k cs) :
    f.uploaded = false ∧ f.uploadFailed = false := by
  induction cs generalizing k with
  | nil => simp [attachIds] at hf
  | cons c t ih =>
    rcases (by simpa [attachIds] using hf :
        f = { id := ids k, name := c.name, size := c.size, uploaded := false,
              uploadFailed := false } ∨ f ∈ attachIds ids (k + 1) t) with h | h
    · subst h; exact ⟨rfl, rfl⟩
    · exact ih (k + 1) h

/-- C3: before any submission every pending entry has `uploaded` and
`uploadFailed` both false (selection only adds such entries), and after a
submission completes no entry of the pending set has both flags true. -/
theorem flags_initial_and_exclusive (ids : Nat → String) (prev : List SelectedFile)
    (cands : List CandidateFile) (files : List SelectedFile) (results : List FetchResult)
    (hprev : prev.all (fun f => !f.uploaded && !f.uploadFailed) = true) :
    (handleFileChange ids prev cands).all
        (fun f => !f.uploaded && !f.uploadFailed) = true ∧
    (handleSubmit files results).newState.all
        (fun f => !(f.uploaded && f.uploadFailed)) = true := by
  constructor
  · rw [List.all_eq_true] at hprev ⊢
    intro f hf
    unfold handleFileChange at hf
    by_cases hc : MAX_FILE_COUNT < cands.length + prev.length
    · exact hprev f (by simpa [hc] using hf)
    · rcases List.mem_append.mp (by simpa [hc] using hf) with h | h
      · exact hprev f h
      · have := attachIds_flags ids 0 _ f h
        simp [this.1, this.2]
  · rw [List.all_eq_true]
    intro f hf
    show (!(f.uploaded && f.uploadFailed)) = true
    rcases List.mem_map.mp hf with ⟨g, hg, hgf⟩
    have hgu : g.uploaded = false :=
      by simpa using (List.mem_filter.mp hg).2
    subst hgf
    simp [hgu]

/-- Witness for C3 at a concrete selection and a concrete settled batch. -/
theorem flags_initial_and_exclusive_w :
    (handleFileChange (fun _ => "u1") [] [{ name := "a.png", size := 5 }]).all
        (fun f => !f.uploaded && !f.uploadFailed) = true ∧
    (handleSubmit [sampleFileA] [.resolvedNotOk]).newState.all
        (fun f => !(f.uploaded && f.uploadFailed)) = true :=
  flags_initial_and_exclusive (fun _ => "u1") [] [{ name := "a.png", size := 5 }]
    [sampleFileA] [.resolvedNotOk] (by decide)

/-- The progress counter trace from `c` is the arithmetic sequence
`c, c-1, …`, one step per settled request. -/
theorem scanl_settleDecrement (rs : List FetchResult) (c : Int) :
    rs.scanl settleDecrement c
      = (List.range (rs.length + 1)).map (fun i : Nat => c - (i : Int)) := by
  induction rs generalizing c with
  | nil => simp [List.scanl, List.range_succ]
  | cons r t ih =>
    have hd : settleDecrement c r = c - 1 := by cases r <;> rfl
    rw [List.scanl, hd]
    have hlen : (r :: t).length + 1 = t.length + 1 + 1 := by simp
    rw [hlen, List.range_succ_eq_map]
    simp only [List.map_cons, List.map_map]
    have hfun : ((fun i : Nat => c - (i : Int)) ∘ Nat.succ)
        = fun i : Nat => c - 1 - (i : Int) := by
      funext i
      simp only [Function.comp]
      push_cast
      ring
    rw [hfun, ih]
    simp

/-- C5: for a batch of K files the progress counter starts at K, each settled
request decrements it by exactly one regardless of its outcome, it never goes
negative, and it reaches 0 exactly once. -/
theorem progress_accounting (files : List SelectedFile) (results : List FetchResult)
    (hlen : results.length = files.length) :
    (handleSubmit files results).progressValues.head? = some (files.length : Int) ∧
    (∀ r : FetchResult, ∀ c : Int, settleDecrement c r = c - 1) ∧
    (∀ c ∈ (handleSubmit files results).progressValues, 0 ≤ c) ∧
    (handleSubmit files results).progressValues.count 0 = 1 := by
  have htr : (handleSubmit files results).progressValues
      = (List.range (results.length + 1)).map
          (fun i : Nat => (files.length : Int) - (i : Int)) :=
    scanl_settleDecrement results (files.length : Int)
  refine ⟨?_, fun r c => by cases r <;> rfl, ?_, ?_⟩
  · show (progressTrace files.length results).head? = _
    cases results <;> rfl
  · intro c hc
    rw [htr] at hc
    rcases List.mem_map.mp hc with ⟨i, hi, hic⟩
    have hlt : i < results.length + 1 := List.mem_range.mp hi
    have : c = (files.length : Int) - (i : Int) := hic.symm
    omega
  · rw [htr, hlen]
    have hinj : Function.Injective (fun i : Nat => (files.length : Int) - (i : Int)) := by
      intro a b hab
      simp only at hab
      omega
    have hnd : ((List.range (files.length + 1)).map
        (fun i : Nat => (files.length : Int) - (i : Int))).Nodup :=
      (List.nodup_range (files.length + 1)).map hinj
    have hmem : (0 : Int) ∈ (List.range (files.length + 1)).map
        (fun i : Nat => (files.length : Int) - (i : Int)) :=
      List.mem_map.mpr ⟨files.length, List.mem_range.mpr (by omega), by simp⟩
    exact List.count_eq_one_of_mem hnd hmem

/-- Witness for C5 at a concrete two-file batch with one success and one
thrown request. -/
theorem progress_accounting_w :
    (handleSubmit [sampleFileA, sampleFileB] [.resolvedOk, .threw]).progressValues.head?
      = some (2 : Int) ∧
    (handleSubmit [sampleFileA, sampleFileB] [.resolvedOk, .threw]).progressValues.count 0
      = 1 := by
  have h := progress_accounting [sampleFileA, sampleFileB] [.resolvedOk, .threw] rfl
  exact ⟨h.1, h.2.2.2⟩

/-- C9: an invalid rename attempt (empty new name, or a new name failing the
alphanumeric/length test) leaves the whole pending set unchanged. -/
theorem rename_invalid_frame (files : List SelectedFile) (targetId newName : String)
    (h : newName = "" ∨ newNameRegexTest newName = false) :
    handleRename files targetId newName = files := by
  unfold handleRename
  cases hfind : files.find? (fun f => f.id == targetId) with
  | none => rfl
  | some target =>
    rcases h with h | h
    · simp [h]
    · simp [h]

/-- Witness for C9: a name with a space fails the test and the pending set is
untouched. -/
theorem rename_invalid_frame_w :
    newNameRegexTest "bad name" = false ∧
    handleRename [sampleFileA, sampleFileB] "f1" "bad name" = [sampleFileA, sampleFileB] :=
  ⟨by decide,
   rename_invalid_frame [sampleFileA, sampleFileB] "f1" "bad name" (Or.inr (by decide))⟩

/-- Splitting on a character that does not occur yields the whole list as the
single segment. -/
theorem splitOnChar_not_mem (c : Char) (l : List Char) (h : c ∉ l) :
    splitOnChar c l = [l] := by
  induction l with
  | nil => rfl
  | cons x xs ih =>
    have hx : ¬(x = c) := fun he => h (by simp [he])
    have h' : c ∉ xs := fun hm => h (by simp [hm])
    simp [splitOnChar, ih h', hx]

/-- C10: when the target entry's current display name contains no dot, the
computed "extension" is the entire old name, so a successful rename sets the
display name to `newName ++ "." ++ oldName`. -/
theorem rename_dotless (files : List SelectedFile) (targetId newName : String)
    (target : SelectedFile)
    (hfind : files.find? (fun f => f.id == targetId) = some target)
    (hdot : '.' ∉ target.name.data)
    (h1 : ¬(newName = "")) (h2 : newNameRegexTest newName = true) :
    handleRename files targetId newName
      = files.map (fun f =>
          if f.id == targetId then { f with name := newName ++ "." ++ target.name }
          else f) := by
  have hext : fileExtension target.name = target.name := by
    unfold fileExtension
    rw [splitOnChar_not_mem '.' target.name.data hdot]
    rfl
  unfold handleRename
  rw [hfind]
  simp [h1, h2, hext]

/-- A concrete pending entry whose display name has no dot. -/
def sampleDotless : SelectedFile :=
  { id := "f9", name := "noext", size := 4, uploaded := false, uploadFailed := false }

/-- Witness for C10: renaming the dotless entry "noext" to "photo" yields the
display name "photo.noext". -/
theorem rename_dotless_w :
    handleRename [sampleDotless] "f9" "photo"
      = [sampleDotless].map (fun f =>
          if f.id == "f9" then { f with name := "photo" ++ "." ++ sampleDotless.name }
          else f) :=
  rename_dotless [sampleDotless] "f9" "photo" sampleDotless (by decide) (by decide)
    (by decide) (by decide)

end ImgurApp
